import Mathlib

/-!
Verification of the beads_rust lease/claim core against its specification.

The command glue lives in the repository sources
(`src/cli/commands/claim.rs`, `src/cli/commands/lease_sweep.rs`,
`src/cli/commands/ready.rs`, `src/util/lease.rs`) and is embedded here
directly.  The storage layer (`SqliteStorage`) and the identifier resolver
(`util/id.rs`) are not part of the provided sources; the operations this
development needs from them (`claim_issue`, `sweep_expired_leases`,
single-token resolution) are modelled from the specification, as marked on
each definition.

Timestamps (`chrono::DateTime<Utc>`) are modelled as integers counting
seconds; `chrono::Duration::seconds n` is integer addition of `n` and
`chrono::Duration::minutes m` is addition of `60 * m`.
-/

namespace Beads

/-- Error kinds of the program, as listed in the specification's error
handling section and visible through the `BeadsError::validation`
constructions in the command sources. -/
inductive BeadsError where
  | validation (field msg : String)
  | notFound (token : String)
  | ambiguous (token : String) (candidates : List String)
  | alreadyClaimed (id : String)
  | leaseMismatch (id : String)
  | leaseExpired (id : String)
  deriving Repr, DecidableEq

/-- Whether an error is a `Validation` error. -/
def BeadsError.isValidation : BeadsError → Bool
  | .validation _ _ => true
  | _ => false

/-- Lease record on an issue, the field group written by a successful claim
(owner, lease id, absolute expiry, last heartbeat). -/
structure Lease where
  lease_id : String
  owner : String
  expires_at : Int
  heartbeat_at : Int
  deriving Repr, DecidableEq

/-- The store's lease view: each issue id maps to its optional lease.
An association list stands in for the SQLite issue table. -/
abbrev Store : Type := List (String × Option Lease)

/-- Look an issue up in the store by id. -/
def lookupStore (store : Store) (id : String) : Option (Option Lease) :=
  (store.find? (fun e => e.1 = id)).map (·.2)

/-- Replace the lease field group of issue `id` in the store. -/
def setLease (store : Store) (id : String) (l : Option Lease) : Store :=
  store.map (fun e => if e.1 = id then (e.1, l) else e)

/-- From src/util/lease.rs, lease_expires_at: expiry is now plus the TTL
in seconds. -/
def lease_expires_at (now ttl_seconds : Int) : Int :=
  now + ttl_seconds

/-- Modelled from the spec: `SqliteStorage::claim_issue` is not in the
provided sources.  Claim fails with `AlreadyClaimed` when a live
(non-expired) lease with a different lease id is present; otherwise it
writes the lease record with `heartbeat_at` initialised to the grant
time.  An unknown issue id is a `NotFound` failure. -/
def claim_issue (store : Store) (id actor lease_id : String)
    (expires_at now : Int) : Except BeadsError Store :=
  match lookupStore store id with
  | none => .error (.notFound id)
  | some cur =>
    match cur with
    | some l =>
      if now < l.expires_at ∧ l.lease_id ≠ lease_id then
        .error (.alreadyClaimed id)
      else
        .ok (setLease store id (some ⟨lease_id, actor, expires_at, now⟩))
    | none =>
      .ok (setLease store id (some ⟨lease_id, actor, expires_at, now⟩))

/-- Modelled from the spec: single-token resolution of `util/id.rs`
(`IdResolver`), which is not in the provided sources.  A token matching an
existing id is returned unchanged; otherwise it is treated as a hash
fragment: one match resolves, zero matches is `NotFound`, several matches
is `Ambiguous`. -/
def resolveToken (ex : String → Bool) (findByHash : String → List String)
    (token : String) : Except BeadsError String :=
  if ex token then .ok token
  else
    match findByHash token with
    | [x] => .ok x
    | [] => .error (.notFound token)
    | ms => .error (.ambiguous token ms)

/-- Modelled from the spec: batch resolution applies the single-token rule
to each token in input order and fails fast on the first unresolved
token. -/
def resolveAll (ex : String → Bool) (findByHash : String → List String) :
    List String → Except BeadsError (List String)
  | [] => .ok []
  | t :: ts =>
    match resolveToken ex findByHash t with
    | .error e => .error e
    | .ok r =>
      match resolveAll ex findByHash ts with
      | .error e => .error e
      | .ok rs => .ok (r :: rs)

/-- Arguments of the claim command (`ClaimArgs`): target id tokens, an
optional explicit lease id, and the TTL in seconds (i64). -/
structure ClaimArgs where
  ids : List String
  lease_id : Option String
  ttl_seconds : Int
  deriving Repr, DecidableEq

/-- JSON output structure for claim results, from src/cli/commands/claim.rs. -/
structure ClaimOutput where
  id : String
  lease_id : String
  lease_owner : String
  lease_expires_at : Int
  lease_heartbeat_at : Int
  deriving Repr, DecidableEq

/-- From src/cli/commands/claim.rs, resolve_target_ids: default to the
last-touched issue when no ids are given (empty string meaning none),
then resolve every token against the store callbacks. -/
def resolve_target_ids (args : ClaimArgs) (lastTouched : String)
    (ex : String → Bool) (findByHash : String → List String) :
    Except BeadsError (List String) :=
  let ids :=
    if args.ids.isEmpty then
      if lastTouched = "" then none else some [lastTouched]
    else some args.ids
  match ids with
  | none => .error (.validation "ids" "no issue IDs provided and no last-touched issue")
  | some ids => resolveAll ex findByHash ids

/-- The claim loop of src/cli/commands/claim.rs execute: claim each
resolved id in order; `genLease k` and `clock k` model the fresh lease id
and `Utc::now()` observed at the k-th iteration.  A store failure aborts
immediately (`?`), dropping the collected outputs; mutations already made
persist. -/
def claimLoop (actor : String) (lid : Option String) (ttl : Int)
    (genLease : Nat → String) (clock : Nat → Int) (isJson : Bool) :
    List String → Nat → Store → List ClaimOutput →
    Option BeadsError × Store × List ClaimOutput
  | [], _, store, outs => (none, store, outs)
  | id :: rest, k, store, outs =>
    let lease_id := lid.getD (genLease k)
    let now := clock k
    let expires_at := lease_expires_at now ttl
    match claim_issue store id actor lease_id expires_at now with
    | .error e => (some e, store, [])
    | .ok store' =>
      let outs' :=
        if isJson then
          outs ++ [⟨id, lease_id, actor, expires_at, now⟩]
        else outs
      claimLoop actor lid ttl genLease clock isJson rest (k + 1) store' outs'

/-- The claim command (src/cli/commands/claim.rs execute) from target
resolution onward: resolve, validate the explicit lease id against the
target count, validate the TTL, then claim in order.  The result carries
the error (if any), the final store, and the JSON outputs emitted. -/
def claimExecute (args : ClaimArgs) (lastTouched actor : String)
    (findByHash : String → List String) (genLease : Nat → String)
    (clock : Nat → Int) (isJson : Bool) (store : Store) :
    Option BeadsError × Store × List ClaimOutput :=
  match resolve_target_ids args lastTouched
      (fun id => (lookupStore store id).isSome) findByHash with
  | .error e => (some e, store, [])
  | .ok resolved_ids =>
    if args.lease_id.isSome ∧ 1 < resolved_ids.length then
      (some (.validation "lease_id"
        "lease_id can only be provided when claiming a single issue"), store, [])
    else if args.ttl_seconds ≤ 0 then
      (some (.validation "ttl"
        "lease TTL must be a positive number of seconds"), store, [])
    else
      claimLoop actor args.lease_id args.ttl_seconds genLease clock isJson
        resolved_ids 0 store []

/-- Health mark left on an issue by the sweeper (stale or orphaned), an
audit annotation distinct from the lease itself. -/
inductive LeaseMark where
  | stale
  | orphaned
  deriving Repr, DecidableEq

/-- One issue as seen by the sweeper: its id, its optional lease, and the
last health mark recorded. -/
structure SweepIssue where
  id : String
  lease : Option Lease
  mark : Option LeaseMark
  deriving Repr, DecidableEq

/-- Sweep counters (`LeaseSweepSummary`): expired, stale-marked,
orphan-marked, and total reclaimed leases. -/
structure LeaseSweepSummary where
  expired : Nat
  stale_marked : Nat
  orphaned_marked : Nat
  reclaimed_leases : Nat
  deriving Repr, DecidableEq

/-- Pointwise sum of sweep counters. -/
def LeaseSweepSummary.add (a b : LeaseSweepSummary) : LeaseSweepSummary :=
  ⟨a.expired + b.expired, a.stale_marked + b.stale_marked,
    a.orphaned_marked + b.orphaned_marked,
    a.reclaimed_leases + b.reclaimed_leases⟩

/-- Modelled from the spec: the per-issue step of
`SqliteStorage::sweep_expired_leases`, which is not in the provided
sources.  Expired leases are reclaimed; leases past the orphan threshold
are marked orphaned and reclaimed; leases past the stale threshold are
marked stale but kept; healthy or absent leases are untouched.  Both
reclaim paths count into `reclaimed_leases`. -/
def sweepOne (now stale_after orphan_after : Int) (iss : SweepIssue) :
    SweepIssue × LeaseSweepSummary :=
  match iss.lease with
  | none => (iss, ⟨0, 0, 0, 0⟩)
  | some l =>
    if l.expires_at < now then
      ({ iss with lease := none }, ⟨1, 0, 0, 1⟩)
    else if orphan_after < now - l.heartbeat_at then
      ({ iss with lease := none, mark := some .orphaned }, ⟨0, 0, 1, 1⟩)
    else if stale_after < now - l.heartbeat_at then
      ({ iss with mark := some .stale }, ⟨0, 1, 0, 0⟩)
    else (iss, ⟨0, 0, 0, 0⟩)

/-- Modelled from the spec: `SqliteStorage::sweep_expired_leases`, a
single deterministic pass applying `sweepOne` to every issue and summing
the counters. -/
def sweep_expired_leases (now stale_after orphan_after : Int) :
    List SweepIssue → List SweepIssue × LeaseSweepSummary
  | [] => ([], ⟨0, 0, 0, 0⟩)
  | iss :: rest =>
    let p := sweepOne now stale_after orphan_after iss
    let q := sweep_expired_leases now stale_after orphan_after rest
    (p.1 :: q.1, p.2.add q.2)

/-- Arguments of the lease sweeper command (`LeaseSweepArgs`): sweep
interval in seconds (u64), stale/orphan thresholds in minutes (i64), and
the daemon flag. -/
structure LeaseSweepArgs where
  interval_seconds : Nat
  stale_after_minutes : Int
  orphan_after_minutes : Int
  daemon : Bool
  deriving Repr, DecidableEq

/-- The sweep loop of src/cli/commands/lease_sweep.rs execute: run one
sweep per iteration (run_once reads `Utc::now()`, modelled by `clock k`,
and converts the minute thresholds with Duration::minutes); stop after one
pass unless in daemon mode.  `fuel` bounds the otherwise endless daemon
loop; the result counts the sweeps performed. -/
def sweepLoop (args : LeaseSweepArgs) (clock : Nat → Int) :
    Nat → Nat → List SweepIssue → List SweepIssue × Nat
  | 0, sweeps, issues => (issues, sweeps)
  | fuel + 1, sweeps, issues =>
    let now := clock sweeps
    let issues' :=
      (sweep_expired_leases now (60 * args.stale_after_minutes)
        (60 * args.orphan_after_minutes) issues).1
    if args.daemon then
      sweepLoop args clock fuel (sweeps + 1) issues'
    else (issues', sweeps + 1)

/-- The lease sweeper command (src/cli/commands/lease_sweep.rs execute):
the interval, stale and orphan validations run in order before any sweep;
only then does the (possibly daemon) sweep loop start.  Result: the error
if validation failed, the final store, and the number of sweeps run. -/
def lease_sweep_execute (args : LeaseSweepArgs) (clock : Nat → Int)
    (fuel : Nat) (issues : List SweepIssue) :
    Option BeadsError × List SweepIssue × Nat :=
  if args.interval_seconds = 0 then
    (some (.validation "interval"
      "interval must be a positive number of seconds"), issues, 0)
  else if args.stale_after_minutes ≤ 0 then
    (some (.validation "stale-after"
      "stale-after must be a positive number of minutes"), issues, 0)
  else if args.orphan_after_minutes ≤ args.stale_after_minutes then
    (some (.validation "orphan-after"
      "orphan-after must be greater than stale-after"), issues, 0)
  else
    let p := sweepLoop args clock fuel 0 issues
    (none, p.1, p.2)

/-- An issue as the ready command consumes it: the fields read by
src/cli/commands/ready.rs. -/
structure Issue where
  id : String
  title : String
  priority : Int
  assignee : Option String
  deriving Repr, DecidableEq

/-- Ready-queue filters (`ReadyFilters`) passed to the storage query.
Types and priorities carry the already-parsed filter values. -/
structure ReadyFilters where
  assignee : Option String
  unassigned : Bool
  labels_and : List String
  labels_or : List String
  types : Option (List String)
  priorities : Option (List Int)
  include_deferred : Bool
  limit : Option Nat
  deriving Repr, DecidableEq

/-- Sort policy accepted by the ready command. -/
inductive ReadySortPolicy where
  | hybrid
  | priority
  | oldest
  deriving Repr, DecidableEq

/-- Arguments of the ready command that reach the queue computation. -/
structure ReadyArgs where
  assignee : Option String
  unassigned : Bool
  label : List String
  label_any : List String
  types : Option (List String)
  priorities : Option (List Int)
  include_deferred : Bool
  limit : Nat
  sort : ReadySortPolicy
  deriving Repr, DecidableEq

/-- The `ReadyFilters` record built in src/cli/commands/ready.rs execute:
all candidates are fetched (limit set to none) to allow post-filtering of
external blockers. -/
def mkReadyFilters (args : ReadyArgs) : ReadyFilters :=
  { assignee := args.assignee
    unassigned := args.unassigned
    labels_and := args.label
    labels_or := args.label_any
    types := args.types
    priorities := args.priorities
    include_deferred := args.include_deferred
    limit := none }

/-- The ready-queue pipeline of src/cli/commands/ready.rs execute:
query the storage with no limit, drop issues keyed in the external
blockers map (when that map is nonempty), then truncate to the caller's
limit when it is positive.  `getReady` abstracts
`SqliteStorage::get_ready_issues` and `externalBlockerKeys` the key set of
the map returned by `external_blockers` (not in the provided sources). -/
def readyExecute (args : ReadyArgs)
    (getReady : ReadyFilters → ReadySortPolicy → List Issue)
    (externalBlockerKeys : List String) : List Issue :=
  let filters := mkReadyFilters args
  let ready_issues := getReady filters args.sort
  let ready_issues :=
    if ¬ externalBlockerKeys.isEmpty then
      ready_issues.filter (fun issue => !(externalBlockerKeys.contains issue.id))
    else ready_issues
  if 0 < args.limit ∧ args.limit < ready_issues.length then
    ready_issues.take args.limit
  else ready_issues

/-! Theorems -/

/-- After one sweep, a surviving lease is neither expired nor past the
orphan threshold, so a second sweep at the same clock reclaims nothing
from this issue. -/
theorem sweepOne_second_pass_no_reclaim (now sa oa : Int) (iss : SweepIssue) :
    (sweepOne now sa oa (sweepOne now sa oa iss).1).2.reclaimed_leases = 0 := by
  unfold sweepOne
  cases h : iss.lease with
  | none => simp [h]
  | some l =>
    by_cases h1 : l.expires_at < now
    · simp [h, h1]
    · by_cases h2 : oa < now - l.heartbeat_at
      · simp [h, h1, h2]
      · by_cases h3 : sa < now - l.heartbeat_at
        · simp [h, h1, h2, h3]
        · simp [h, h1, h2, h3]

/-- C2: sweep idempotence.  For a fixed store state and a fixed clock,
running the lease sweep a second time in immediate succession with no
intervening claims reclaims zero leases: the second run's
reclaimed_leases count is 0 (in particular it is 0 whenever the first
run's was nonzero). -/
theorem sweep_second_run_reclaims_zero (now sa oa : Int)
    (issues : List SweepIssue) :
    (sweep_expired_leases now sa oa
      (sweep_expired_leases now sa oa issues).1).2.reclaimed_leases = 0 := by
  induction issues with
  | nil => rfl
  | cons iss rest ih =>
    have h1 := sweepOne_second_pass_no_reclaim now sa oa iss
    simp only [sweep_expired_leases, LeaseSweepSummary.add] at *
    omega

/-- C3: single-token identifier resolution.  A token matching an existing
id resolves to itself; otherwise it is treated as a hash fragment:
exactly one hash match resolves to that id, zero matches fails with
NotFound, and two or more matches fails with Ambiguous — the resolver
never guesses among multiple matches. -/
theorem resolveToken_single_token_spec (ex : String → Bool)
    (findByHash : String → List String) (token : String) :
    (ex token = true → resolveToken ex findByHash token = .ok token) ∧
    (∀ x, ex token = false → findByHash token = [x] →
      resolveToken ex findByHash token = .ok x) ∧
    (ex token = false → findByHash token = [] →
      resolveToken ex findByHash token = .error (.notFound token)) ∧
    (ex token = false → 2 ≤ (findByHash token).length →
      resolveToken ex findByHash token =
        .error (.ambiguous token (findByHash token))) := by
  refine ⟨?_, ?_, ?_, ?_⟩
  · intro h; simp [resolveToken, h]
  · intro x h hf; simp [resolveToken, h, hf]
  · intro h hf; simp [resolveToken, h, hf]
  · intro h hlen
    cases hfb : findByHash token with
    | nil => rw [hfb] at hlen; simp at hlen
    | cons a t =>
      cases t with
      | nil => rw [hfb] at hlen; simp at hlen
      | cons b t' => simp [resolveToken, h, hfb]

/-- Witness for C3 at the spec's own example: with ids abc-1 and abc-2
both matching the fragment, resolution fails with Ambiguous. -/
theorem resolveToken_single_token_spec_witness :
    resolveToken (fun t => t == "abc-1" || t == "abc-2")
      (fun f => if f = "ff" then ["abc-1", "abc-2"] else []) "ff" =
      .error (.ambiguous "ff" ["abc-1", "abc-2"]) := by
  have h := (resolveToken_single_token_spec
      (fun t => t == "abc-1" || t == "abc-2")
      (fun f => if f = "ff" then ["abc-1", "abc-2"] else []) "ff").2.2.2
    (by decide) (by decide)
  simpa using h

/-- C5: external-blocker exclusion.  Every issue in the ready-queue
output has an id absent from the external-blockers key set; hence any
issue keyed in that map — including blockers kept because a referenced
store was unreachable — is excluded from the output, even when the
storage query returned it as locally ready. -/
theorem ready_external_blocked_excluded (args : ReadyArgs)
    (getReady : ReadyFilters → ReadySortPolicy → List Issue)
    (externalBlockerKeys : List String) :
    ∀ issue ∈ readyExecute args getReady externalBlockerKeys,
      externalBlockerKeys.contains issue.id = false := by
  intro issue hmem
  unfold readyExecute at hmem
  by_cases hbk : externalBlockerKeys.isEmpty
  · cases externalBlockerKeys with
    | nil => simp
    | cons a t => simp at hbk
  · simp only [hbk, not_false_eq_true, if_true, Bool.not_eq_true] at hmem
    split at hmem
    · have := List.mem_of_mem_take hmem
      have := (List.mem_filter.mp this).2
      simpa using this
    · have := (List.mem_filter.mp hmem).2
      simpa using this

/-- Witness for C5: with issue b-1 externally blocked, the surviving
output member a-1 is not in the blocker key set. -/
theorem ready_external_blocked_excluded_witness :
    (["b-1"] : List String).contains (Issue.mk "a-1" "A" 1 none).id
      = false :=
  ready_external_blocked_excluded
    ⟨none, false, [], [], none, none, false, 0, .hybrid⟩
    (fun _ _ => [⟨"b-1", "B", 0, none⟩, ⟨"a-1", "A", 1, none⟩]) ["b-1"]
    ⟨"a-1", "A", 1, none⟩ (by decide)

/-- C6: for every lease-sweep invocation with orphan_after at most
stale_after, execution fails with a Validation error and performs no
sweep: the store is unchanged and zero sweeps run. -/
theorem lease_sweep_orphan_le_stale_rejected (args : LeaseSweepArgs)
    (clock : Nat → Int) (fuel : Nat) (issues : List SweepIssue)
    (h : args.orphan_after_minutes ≤ args.stale_after_minutes) :
    ∃ e, lease_sweep_execute args clock fuel issues = (some e, issues, 0) ∧
      e.isValidation = true := by
  by_cases h1 : args.interval_seconds = 0
  · exact ⟨.validation "interval" "interval must be a positive number of seconds",
      by simp [lease_sweep_execute, h1], rfl⟩
  · by_cases h2 : args.stale_after_minutes ≤ 0
    · exact ⟨.validation "stale-after" "stale-after must be a positive number of minutes",
        by simp [lease_sweep_execute, h1, h2], rfl⟩
    · exact ⟨.validation "orphan-after" "orphan-after must be greater than stale-after",
        by simp [lease_sweep_execute, h1, h2, h], rfl⟩

/-- Witness for C6: a sweep with orphan-after equal to stale-after is
rejected by validation without sweeping. -/
theorem lease_sweep_orphan_le_stale_rejected_witness :
    ∃ e, lease_sweep_execute ⟨60, 30, 30, false⟩ (fun _ => 0) 5 [] =
      (some e, [], 0) ∧ e.isValidation = true :=
  lease_sweep_orphan_le_stale_rejected ⟨60, 30, 30, false⟩ (fun _ => 0) 5 []
    (by decide)

/-- C9: a sweep interval of 0 seconds is invalid: execution fails with
the interval Validation error before any sweep runs, whatever the daemon
flag and the other arguments. -/
theorem lease_sweep_interval_zero_rejected (args : LeaseSweepArgs)
    (clock : Nat → Int) (fuel : Nat) (issues : List SweepIssue)
    (h : args.interval_seconds = 0) :
    lease_sweep_execute args clock fuel issues =
      (some (.validation "interval"
        "interval must be a positive number of seconds"), issues, 0) := by
  simp [lease_sweep_execute, h]

/-- Witness for C9: interval 0 in daemon mode is rejected with the
interval validation error and zero sweeps. -/
theorem lease_sweep_interval_zero_rejected_witness :
    lease_sweep_execute ⟨0, 30, 60, true⟩ (fun _ => 0) 5 [] =
      (some (.validation "interval"
        "interval must be a positive number of seconds"), [], 0) :=
  lease_sweep_interval_zero_rejected ⟨0, 30, 60, true⟩ (fun _ => 0) 5 [] rfl

/-- Truncating only when strictly longer than a positive limit is the
same as always taking the first limit elements. -/
theorem take_if_longer (n : Nat) (l : List Issue) (h : 0 < n) :
    (if 0 < n ∧ n < l.length then l.take n else l) = l.take n := by
  split
  · rfl
  · next hc =>
    have hlen : l.length ≤ n := by
      rcases Nat.lt_or_ge n l.length with hlt | hge
      · exact absurd ⟨h, hlt⟩ hc
      · exact hge
    exact (List.take_of_length_le hlen).symm

/-- C4: for every ready-queue invocation with a positive caller limit,
the storage query is issued with no limit, external-blocked issues are
removed, and only then is the result truncated: the output equals the
unlimited query result filtered by the external-blocker key set and then
taken to the limit. -/
theorem ready_limit_after_external_filter (args : ReadyArgs)
    (getReady : ReadyFilters → ReadySortPolicy → List Issue)
    (externalBlockerKeys : List String) (h : 0 < args.limit) :
    (mkReadyFilters args).limit = none ∧
    readyExecute args getReady externalBlockerKeys =
      ((getReady (mkReadyFilters args) args.sort).filter
        (fun issue => !(externalBlockerKeys.contains issue.id))).take
        args.limit := by
  refine ⟨rfl, ?_⟩
  unfold readyExecute
  by_cases hbk : externalBlockerKeys.isEmpty
  · have hid : (getReady (mkReadyFilters args) args.sort).filter
        (fun issue => !(externalBlockerKeys.contains issue.id)) =
        getReady (mkReadyFilters args) args.sort := by
      cases externalBlockerKeys with
      | nil => simp
      | cons a t => simp at hbk
    simp only [hbk, not_true_eq_false, if_false, hid]
    exact take_if_longer args.limit _ h
  · simp only [hbk, not_false_eq_true, if_true]
    exact take_if_longer args.limit _ h

/-- Witness for C4: with limit 1 and one blocked issue ahead of two ready
ones, the output is the filtered list truncated to one element. -/
theorem ready_limit_after_external_filter_witness :
    (mkReadyFilters ⟨none, false, [], [], none, none, false, 1, .hybrid⟩).limit
      = none ∧
    readyExecute ⟨none, false, [], [], none, none, false, 1, .hybrid⟩
      (fun _ _ => [⟨"b-1", "B", 0, none⟩, ⟨"a-1", "A", 1, none⟩,
        ⟨"a-2", "C", 2, none⟩]) ["b-1"] =
      (([⟨"b-1", "B", 0, none⟩, ⟨"a-1", "A", 1, none⟩,
        ⟨"a-2", "C", 2, none⟩] : List Issue).filter
        (fun issue => !((["b-1"] : List String).contains issue.id))).take 1 :=
  ready_limit_after_external_filter
    ⟨none, false, [], [], none, none, false, 1, .hybrid⟩
    (fun _ _ => [⟨"b-1", "B", 0, none⟩, ⟨"a-1", "A", 1, none⟩,
      ⟨"a-2", "C", 2, none⟩]) ["b-1"] (by decide)

/-- C7: when an explicit lease id is supplied and the resolved target set
has more than one issue, the claim command fails with the lease_id
validation error before attempting any claim: the store is unchanged and
no output is produced. -/
theorem claim_lease_id_multi_rejected (args : ClaimArgs)
    (lastTouched actor : String) (findByHash : String → List String)
    (genLease : Nat → String) (clock : Nat → Int) (isJson : Bool)
    (store : Store) (resolved_ids : List String)
    (hres : resolve_target_ids args lastTouched
      (fun id => (lookupStore store id).isSome) findByHash = .ok resolved_ids)
    (hlid : args.lease_id.isSome = true)
    (hlen : 1 < resolved_ids.length) :
    claimExecute args lastTouched actor findByHash genLease clock isJson
        store =
      (some (.validation "lease_id"
        "lease_id can only be provided when claiming a single issue"),
        store, []) := by
  unfold claimExecute
  rw [hres]
  simp [hlid, hlen]

/-- Witness for C7: claiming two resolved issues with an explicit lease
id is rejected by validation, leaving the store untouched. -/
theorem claim_lease_id_multi_rejected_witness :
    claimExecute ⟨["a-1", "b-2"], some "L", 60⟩ "" "alice" (fun _ => [])
        (fun _ => "G") (fun _ => 100) true [("a-1", none), ("b-2", none)] =
      (some (.validation "lease_id"
        "lease_id can only be provided when claiming a single issue"),
        [("a-1", none), ("b-2", none)], []) :=
  claim_lease_id_multi_rejected ⟨["a-1", "b-2"], some "L", 60⟩ "" "alice"
    (fun _ => []) (fun _ => "G") (fun _ => 100) true
    [("a-1", none), ("b-2", none)] ["a-1", "b-2"] rfl rfl
    (by decide)

/-- Counterexample to C1 as stated: with TTL -1 and a token that resolves
to nothing, the claim command fails with NotFound, not with a Validation
error — identifier resolution runs (and can fail) before the TTL check. -/
theorem claim_nonpositive_ttl_cex :
    (-1 : Int) ≤ 0 ∧
    (claimExecute ⟨["zzz"], none, -1⟩ "" "alice" (fun _ => [])
      (fun _ => "G") (fun _ => 0) true []).1 = some (.notFound "zzz") ∧
    BeadsError.isValidation (.notFound "zzz") = false := by
  refine ⟨by decide, by decide, rfl⟩

/-- C1 amended: for every claim invocation with TTL at most 0 whose
targets resolve successfully, the command fails with a Validation error
and performs no store mutation: the store is returned unchanged and no
lease is written. -/
theorem claim_nonpositive_ttl_validation (args : ClaimArgs)
    (lastTouched actor : String) (findByHash : String → List String)
    (genLease : Nat → String) (clock : Nat → Int) (isJson : Bool)
    (store : Store) (resolved_ids : List String)
    (hres : resolve_target_ids args lastTouched
      (fun id => (lookupStore store id).isSome) findByHash = .ok resolved_ids)
    (httl : args.ttl_seconds ≤ 0) :
    ∃ e, claimExecute args lastTouched actor findByHash genLease clock
        isJson store = (some e, store, []) ∧ e.isValidation = true := by
  unfold claimExecute
  rw [hres]
  by_cases hl : args.lease_id.isSome = true ∧ 1 < resolved_ids.length
  · exact ⟨.validation "lease_id"
      "lease_id can only be provided when claiming a single issue",
      by simp [hl.1, hl.2], rfl⟩
  · exact ⟨.validation "ttl" "lease TTL must be a positive number of seconds",
      by simp [hl, httl], rfl⟩

/-- Witness for the amended C1: TTL 0 on a resolvable target fails with a
Validation error and leaves the store unchanged. -/
theorem claim_nonpositive_ttl_validation_witness :
    ∃ e, claimExecute ⟨["a-1"], none, 0⟩ "" "alice" (fun _ => [])
        (fun _ => "G") (fun _ => 0) true [("a-1", none)] =
      (some e, [("a-1", none)], []) ∧ e.isValidation = true :=
  claim_nonpositive_ttl_validation ⟨["a-1"], none, 0⟩ "" "alice"
    (fun _ => []) (fun _ => "G") (fun _ => 0) true [("a-1", none)] ["a-1"]
    rfl (by decide)

/-- Loop invariant for the claim loop in JSON mode: on success, every
collected output records a heartbeat equal to some observed clock value
and an expiry equal to that clock value plus the TTL. -/
theorem claimLoop_output_times (actor : String) (lid : Option String)
    (ttl : Int) (genLease : Nat → String) (clock : Nat → Int) :
    ∀ (ids : List String) (k : Nat) (store : Store)
      (outs : List ClaimOutput) (res : Option BeadsError × Store × List ClaimOutput),
      claimLoop actor lid ttl genLease clock true ids k store outs = res →
      res.1 = none →
      (∀ o ∈ outs, ∃ j, o.lease_heartbeat_at = clock j ∧
        o.lease_expires_at = clock j + ttl) →
      ∀ o ∈ res.2.2, ∃ j, o.lease_heartbeat_at = clock j ∧
        o.lease_expires_at = clock j + ttl := by
  intro ids
  induction ids with
  | nil =>
    intro k store outs res hres _ hout
    simp only [claimLoop] at hres
    subst hres
    exact hout
  | cons id rest ih =>
    intro k store outs res hres hnone hout
    simp only [claimLoop] at hres
    split at hres
    · subst hres; simp at hnone
    · next store1 heq =>
      refine ih (k + 1) store1 _ res hres hnone ?_
      intro o ho
      simp only [if_true] at ho
      rcases List.mem_append.mp ho with hmem | hmem
      · exact hout o hmem
      · have : o = ⟨id, lid.getD (genLease k), actor,
            lease_expires_at (clock k) ttl, clock k⟩ := by
          simpa using hmem
        subst this
        exact ⟨k, rfl, rfl⟩

/-- C8: for every successfully claimed issue, the reported
lease_heartbeat_at equals the grant time (the clock value observed at
that claim) and the reported lease_expires_at equals that grant time plus
ttl_seconds; since a successful run implies a positive TTL, the expiry is
strictly greater than the grant time. -/
theorem claim_reported_lease_times (args : ClaimArgs)
    (lastTouched actor : String) (findByHash : String → List String)
    (genLease : Nat → String) (clock : Nat → Int) (store store' : Store)
    (outs : List ClaimOutput)
    (h : claimExecute args lastTouched actor findByHash genLease clock true
      store = (none, store', outs)) :
    ∀ o ∈ outs, ∃ k, o.lease_heartbeat_at = clock k ∧
      o.lease_expires_at = clock k + args.ttl_seconds ∧
      o.lease_heartbeat_at < o.lease_expires_at := by
  unfold claimExecute at h
  split at h
  · simp at h
  · next rids heq =>
    split at h
    · simp at h
    · split at h
      · simp at h
      · next httl =>
        intro o ho
        obtain ⟨k, hk1, hk2⟩ :=
          claimLoop_output_times actor args.lease_id args.ttl_seconds
            genLease clock rids 0 store [] (none, store', outs) h rfl
            (by simp) o ho
        exact ⟨k, hk1, hk2, by omega⟩

/-- Witness for C8: a successful single claim at clock 100 with TTL 60
reports heartbeat 100 and expiry 160. -/
theorem claim_reported_lease_times_witness :
    ∃ _k : Nat, (ClaimOutput.mk "a-1" "L" "alice" 160 100).lease_heartbeat_at
        = (100 : Int) ∧
      (ClaimOutput.mk "a-1" "L" "alice" 160 100).lease_expires_at
        = (100 : Int) + 60 ∧
      (ClaimOutput.mk "a-1" "L" "alice" 160 100).lease_heartbeat_at
        < (ClaimOutput.mk "a-1" "L" "alice" 160 100).lease_expires_at :=
  claim_reported_lease_times ⟨["a-1"], none, 60⟩ "" "alice" (fun _ => [])
    (fun _ => "L") (fun _ => 100) [("a-1", none)]
    [("a-1", some ⟨"L", "alice", 160, 100⟩)]
    [⟨"a-1", "L", "alice", 160, 100⟩] rfl
    ⟨"a-1", "L", "alice", 160, 100⟩ (by simp)

/-- Setting the lease of an issue present in the store makes it the value
subsequently looked up for that issue. -/
theorem lookupStore_setLease_self (store : Store) (id : String)
    (l : Option Lease) (h : (lookupStore store id).isSome = true) :
    lookupStore (setLease store id l) id = some l := by
  induction store with
  | nil => simp [lookupStore] at h
  | cons e rest ih =>
    by_cases he : e.1 = id
    · simp [lookupStore, setLease, he]
    · have h' : (lookupStore rest id).isSome = true := by
        simpa [lookupStore, List.find?_cons, he] using h
      have := ih h'
      simpa [lookupStore, setLease, List.find?_cons, he] using this

/-- A successful store claim writes the lease record with the supplied
lease id, owner, expiry and grant-time heartbeat on the claimed issue. -/
theorem claim_issue_ok_lease (store s' : Store) (id actor lease_id : String)
    (expires_at now : Int)
    (h : claim_issue store id actor lease_id expires_at now = .ok s') :
    lookupStore s' id = some (some ⟨lease_id, actor, expires_at, now⟩) := by
  unfold claim_issue at h
  split at h
  · simp at h
  · next cur heq =>
    split at h
    · split at h
      · simp at h
      · simp only [Except.ok.injEq] at h
        rw [← h]
        exact lookupStore_setLease_self store id _ (by rw [heq]; rfl)
    · simp only [Except.ok.injEq] at h
      rw [← h]
      exact lookupStore_setLease_self store id _ (by rw [heq]; rfl)

/-- C10: multi-issue claim is not atomic.  When two targets resolve, the
first store claim succeeds and the second fails, the command returns the
second claim's error immediately with the store as left by the first
claim — the lease granted to the first issue remains in place, not rolled
back. -/
theorem claim_multi_issue_not_atomic (store s1 : Store)
    (a b lastTouched actor : String) (findByHash : String → List String)
    (genLease : Nat → String) (clock : Nat → Int) (isJson : Bool)
    (ttl : Int) (e : BeadsError)
    (ha : (lookupStore store a).isSome = true)
    (hb : (lookupStore store b).isSome = true)
    (ht : 0 < ttl)
    (h1 : claim_issue store a actor (genLease 0)
      (lease_expires_at (clock 0) ttl) (clock 0) = .ok s1)
    (h2 : claim_issue s1 b actor (genLease 1)
      (lease_expires_at (clock 1) ttl) (clock 1) = .error e) :
    claimExecute ⟨[a, b], none, ttl⟩ lastTouched actor findByHash genLease
        clock isJson store = (some e, s1, []) ∧
      lookupStore s1 a =
        some (some ⟨genLease 0, actor, lease_expires_at (clock 0) ttl,
          clock 0⟩) := by
  constructor
  · have hta : resolveToken (fun id => (lookupStore store id).isSome)
        findByHash a = .ok a := by simp [resolveToken, ha]
    have htb : resolveToken (fun id => (lookupStore store id).isSome)
        findByHash b = .ok b := by simp [resolveToken, hb]
    have hres : resolve_target_ids ⟨[a, b], none, ttl⟩ lastTouched
        (fun id => (lookupStore store id).isSome) findByHash =
        .ok [a, b] := by
      unfold resolve_target_ids
      simp [resolveAll, hta, htb]
    unfold claimExecute
    rw [hres]
    have httl : ¬ ((⟨[a, b], none, ttl⟩ : ClaimArgs).ttl_seconds ≤ 0) := by
      simp; omega
    simp only [Option.isSome_none, Bool.false_eq_true, false_and, if_false,
      httl, claimLoop, Option.getD_none, h1, h2]
  · exact claim_issue_ok_lease store s1 a actor (genLease 0)
      (lease_expires_at (clock 0) ttl) (clock 0) h1

/-- Witness for C10: claiming issues a-1 and b-2 where b-2 already holds
a live foreign lease grants a-1 its lease, then fails with AlreadyClaimed
on b-2, leaving the a-1 lease in place. -/
theorem claim_multi_issue_not_atomic_witness :
    claimExecute ⟨["a-1", "b-2"], none, 60⟩ "" "alice" (fun _ => [])
        (fun _ => "G") (fun _ => 100) true
        [("a-1", none), ("b-2", some ⟨"X", "bob", 1000, 0⟩)] =
      (some (.alreadyClaimed "b-2"),
        [("a-1", some ⟨"G", "alice", 160, 100⟩),
          ("b-2", some ⟨"X", "bob", 1000, 0⟩)], []) ∧
    lookupStore [("a-1", some ⟨"G", "alice", 160, 100⟩),
        ("b-2", some ⟨"X", "bob", 1000, 0⟩)] "a-1" =
      some (some ⟨"G", "alice", 160, 100⟩) :=
  claim_multi_issue_not_atomic
    [("a-1", none), ("b-2", some ⟨"X", "bob", 1000, 0⟩)]
    [("a-1", some ⟨"G", "alice", 160, 100⟩),
      ("b-2", some ⟨"X", "bob", 1000, 0⟩)]
    "a-1" "b-2" "" "alice" (fun _ => []) (fun _ => "G") (fun _ => 100)
    true 60 (.alreadyClaimed "b-2") rfl rfl (by decide) rfl rfl

end Beads
